import Mathlib

/-!
Verification development for the gd_parser repository (single-header PEG-based
parser for a scene/resource text format). The file embeds, over `List Char`,
the grammar and semantic actions of `gd::parse` in `src/gd_parser.hpp`.

The header holds two variants of the parser:
* the canonical variant (second copy in the header): `Value <- Constructable /
  Dictionary / Array / Boolean / String / Numeric`, with
  `numeric_t = std::variant<float, int>`;
* the legacy variant (first copy): `Value <- Numeric / String / Constructable /
  Dictionary / Array / Boolean`, with a single floating-point numeric.

The PEG execution engine (cpp-peglib) is an external collaborator that is not
part of the repository sources; its contract is embedded from the spec:
ordered choice is first-match-wins, repetition backtracks a failed iteration,
whitespace `[ \t\n\r]*` is skipped between tokens and never inside quoted
strings or captured numeric tokens, and a parse succeeds only when the whole
input is consumed.

Numeric token values are modelled exactly, as rationals: the C++ actions use
`token_to_number`, i.e. standard decimal parsing of the captured span.
-/

namespace GD

/-- Whitespace characters of the grammar's `%whitespace <- [ \t\n\r]*` rule. -/
def isWsChar (c : Char) : Bool :=
  c == ' ' || c == '\t' || c == '\n' || c == '\r'

/-- Digits, from the grammar's `Number <- [0-9]+` character class. -/
def isDigitChar (c : Char) : Bool :=
  '0' ≤ c && c ≤ '9'

/-- Identifier characters, from `Identifier <- <[a-zA-Z.:_0-9]+>`. -/
def isIdentChar (c : Char) : Bool :=
  ('a' ≤ c && c ≤ 'z') || ('A' ≤ c && c ≤ 'Z') || isDigitChar c ||
    c == '.' || c == ':' || c == '_'

/-- Modelled from the spec: the engine skips `%whitespace` between tokens. -/
def skipWs (l : List Char) : List Char :=
  l.dropWhile isWsChar

/-- Match the exact characters `cs` at the head of the input, returning the
remainder. Used for the grammar's literal strings. -/
def matchChars : List Char → List Char → Option (List Char)
  | [], r => some r
  | c :: cs, r =>
    match r with
    | [] => none
    | d :: ds => if d = c then matchChars cs ds else none

/-- Modelled from the spec: a literal token; the engine skips whitespace
between tokens, so the literal may be preceded by whitespace. -/
def litTok (cs : List Char) (inp : List Char) : Option (List Char) :=
  matchChars cs (skipWs inp)

/-- `Number <- [0-9]+` — one or more digits, captured raw (token context,
so no whitespace skipping inside). -/
def parseDigits (inp : List Char) : Option (List Char × List Char) :=
  match inp.takeWhile isDigitChar with
  | [] => none
  | ds => some (ds, inp.dropWhile isDigitChar)

/-- Decimal value of a digit string, as read by `token_to_number`. -/
def digitsVal (ds : List Char) : Nat :=
  ds.foldl (fun a c => 10 * a + (c.toNat - 48)) 0

/-- `Integer <- <'-'? Number>` matched raw, keeping the sign and the digit
magnitude separate (the sign matters even when the magnitude is zero). -/
def parseSignDigits (inp : List Char) : Option ((Bool × Nat) × List Char) :=
  match inp with
  | '-' :: r => (parseDigits r).map fun p => ((true, digitsVal p.1), p.2)
  | _ => (parseDigits inp).map fun p => ((false, digitsVal p.1), p.2)

/-- The fraction-and-exponent part `'.' Number ('e' Integer)?` shared by the
canonical `Float` rule and the legacy `Numeric` rule, matched raw. The
optional exponent group backtracks as a whole when `Integer` fails after
`'e'`. Returns the fraction digits and the exponent (0 when absent). -/
def parseFracExp (inp : List Char) : Option ((List Char × Int) × List Char) :=
  match inp with
  | '.' :: r =>
    match parseDigits r with
    | none => none
    | some (ds, r1) =>
      match r1 with
      | 'e' :: r2 =>
        match parseSignDigits r2 with
        | some ((neg, m), r3) =>
          some ((ds, if neg then -(m : Int) else (m : Int)), r3)
        | none => some ((ds, 0), r1)
      | _ => some ((ds, 0), r1)
  | _ => none

/-- Exact decimal value of a floating literal with sign `neg`, integer part
`m`, fraction digits `ds` and exponent `e` — the number denoted by the
captured token, as parsed by `token_to_number<float>`. Built as a single
normalized rational `mantissa * 10 ^ e / 10 ^ |fraction|`. -/
def floatVal (neg : Bool) (m : Nat) (ds : List Char) (e : Int) : ℚ :=
  let mant : Int :=
    (if neg then -1 else 1) *
      ((m : Int) * (10 : Int) ^ ds.length + (digitsVal ds : Int))
  if 0 ≤ e then
    mkRat (mant * (10 : Int) ^ e.toNat) ((10 : Nat) ^ ds.length)
  else
    mkRat mant ((10 : Nat) ^ ds.length * (10 : Nat) ^ (-e).toNat)

/-- Signed integer value, as parsed by `token_to_number<int>`. -/
def intVal (neg : Bool) (m : Nat) : Int :=
  if neg then -(m : Int) else (m : Int)

/-- `numeric_t = std::variant<float, int>` of the canonical variant. -/
inductive Numeric where
  | float (q : ℚ)
  | integer (z : Int)
deriving DecidableEq

/-- Canonical `Integer <- <'-'? Number>` with its action
`token_to_number<int>`; the token may be preceded by whitespace. -/
def parseIntegerTok (inp : List Char) : Option (Int × List Char) :=
  (parseSignDigits (skipWs inp)).map fun p => (intVal p.1.1 p.1.2, p.2)

/-- Canonical `Float <- <Integer '.' Number ('e' Integer)?>` with its action
`token_to_number<float>`; the token may be preceded by whitespace. -/
def parseFloatTok (inp : List Char) : Option (ℚ × List Char) :=
  match parseSignDigits (skipWs inp) with
  | none => none
  | some ((neg, m), r) =>
    match parseFracExp r with
    | none => none
    | some ((ds, e), r1) => some (floatVal neg m ds e, r1)

/-- Canonical `Numeric <- Float / Integer` with its action: tag the value
with the alternative that matched. -/
def parseNumeric (inp : List Char) : Option (Numeric × List Char) :=
  match parseFloatTok inp with
  | some (q, r) => some (.float q, r)
  | none => (parseIntegerTok inp).map fun p => (.integer p.1, p.2)

/-- Legacy `Numeric <- <Integer ('.' Number ('e' Integer)?)?>` with its
action `token_to_number<float>`: a single floating value. -/
def legNumeric (inp : List Char) : Option (ℚ × List Char) :=
  match parseSignDigits (skipWs inp) with
  | none => none
  | some ((neg, m), r) =>
    match parseFracExp r with
    | some ((ds, e), r1) => some (floatVal neg m ds e, r1)
    | none => some ((intVal neg m : ℚ), r)

/-- Collapse of the canonical two-kind numeric into the legacy single
floating representation. -/
def collapseNumeric : Numeric → ℚ
  | .float q => q
  | .integer z => (z : ℚ)

/-- `Identifier <- <[a-zA-Z.:_0-9]+>` with its action `token_to_string`. -/
def parseIdent (inp : List Char) : Option (String × List Char) :=
  let r := skipWs inp
  match r.takeWhile isIdentChar with
  | [] => none
  | cs => some (String.mk cs, r.dropWhile isIdentChar)

/-- `String <- '"' <[^"]*> '"'` with its action `token_to_string`. The
engine skips whitespace before the opening quote (between tokens) but, per
the spec's engine contract, never inside the quoted string: the captured
payload is every character up to (not including) the next quote. -/
def parseStringTok (inp : List Char) : Option (String × List Char) :=
  match skipWs inp with
  | '"' :: r =>
    match r.dropWhile (fun c => !(c == '"')) with
    | '"' :: r1 => some (String.mk (r.takeWhile (fun c => !(c == '"'))), r1)
    | _ => none
  | _ => none

/-- `Boolean <- 'true' | 'false'` with its action
`token_to_string() == "true"`. -/
def parseBoolTok (inp : List Char) : Option (Bool × List Char) :=
  match litTok ['t', 'r', 'u', 'e'] inp with
  | some r => some (true, r)
  | none =>
    match litTok ['f', 'a', 'l', 's', 'e'] inp with
    | some r => some (false, r)
    | none => none

/-- The canonical recursive value model `gd::value`: a tagged union of
`constructable`, `dictionary_t`, `array_t`, `bool`, `std::string` and
`numeric_t`. The dictionary is the entry list of the `unordered_map`, in
insertion order. -/
inductive Value where
  | constructable (identifier : String) (arguments : List Value)
  | dictionary (entries : List (String × Value))
  | array (elements : List Value)
  | boolean (b : Bool)
  | str (s : String)
  | numeric (n : Numeric)

/-- `gd::field` — a name paired with a value. -/
structure Field where
  name : String
  value : Value

/-- `gd::tag` — an identifier plus the two ordered field sequences. -/
structure Tag where
  identifier : String
  fields : List Field
  assignments : List Field

/-- `gd::file` — the ordered sequence of tags. -/
structure File where
  tags : List Tag

/-- One step of the `Dictionary` action's `std::inserter` into the
`unordered_map`: `insert` does not overwrite an existing key, so an entry
is added only when the key is not yet present. -/
def dictInsert {α : Type} (d : List (String × α)) (kv : String × α) :
    List (String × α) :=
  if d.any (fun e => e.1 == kv.1) then d else d ++ [kv]

/-- The `Dictionary` action: fold the matched `Property` pairs into the map
through `std::inserter` (`parser["Dictionary"]`). -/
def dictionaryAction {α : Type} (props : List (String × α)) :
    List (String × α) :=
  props.foldl dictInsert []

/-- Lookup in an entry list: the value of the first entry with the key —
for a well-formed map (distinct keys) this is the map's lookup. -/
def dictLookup {α : Type} (d : List (String × α)) (k : String) : Option α :=
  (d.find? (fun e => e.1 == k)).map (fun e => e.2)

/-- The wrapper types `detail::fields` / `detail::assignments` that a
`Tag`'s semantic value list holds after its identifier. -/
inductive TagPart (α : Type) where
  | fieldsW (fs : List α)
  | assignmentsW (fs : List α)

/-- The routing loop of `parser["Tag"]`: walk the semantic values after the
identifier; a `detail::fields` value sets the field sequence, a
`detail::assignments` value sets the assignment sequence. -/
def routeParts {α : Type} (parts : List (TagPart α)) : List α × List α :=
  parts.foldl
    (fun acc p =>
      match p with
      | .fieldsW fs => (fs, acc.2)
      | .assignmentsW fs => (acc.1, fs))
    ([], [])

mutual

/-- Canonical `Value <- Constructable / Dictionary / Array / Boolean /
String / Numeric` with the action of `parser["Value"]`: the first
successful alternative is committed and converted to its variant. -/
def parseValue : Nat → List Char → Option (Value × List Char)
  | 0, _ => none
  | n + 1, inp =>
    match parseConstructable n inp with
    | some (c, r) => some (.constructable c.1 c.2, r)
    | none =>
      match parseDictionary n inp with
      | some (d, r) => some (.dictionary d, r)
      | none =>
        match parseArray n inp with
        | some (a, r) => some (.array a, r)
        | none =>
          match parseBoolTok inp with
          | some (b, r) => some (.boolean b, r)
          | none =>
            match parseStringTok inp with
            | some (s, r) => some (.str s, r)
            | none =>
              match parseNumeric inp with
              | some (nm, r) => some (.numeric nm, r)
              | none => none

/-- `Constructable <- Identifier '(' List(Value) ')'` with the action of
`parser["Constructable"]`: leading identifier plus the argument values in
order. -/
def parseConstructable : Nat → List Char →
    Option ((String × List Value) × List Char)
  | 0, _ => none
  | n + 1, inp =>
    match parseIdent inp with
    | none => none
    | some (id, r) =>
      match litTok ['('] r with
      | none => none
      | some r1 =>
        match parseValueList n r1 with
        | none => none
        | some (args, r2) =>
          match litTok [')'] r2 with
          | none => none
          | some r3 => some ((id, args), r3)

/-- `Dictionary <- '{' List(Property) '}'` with the action of
`parser["Dictionary"]` (fold through `std::inserter`). -/
def parseDictionary : Nat → List Char →
    Option (List (String × Value) × List Char)
  | 0, _ => none
  | n + 1, inp =>
    match litTok ['\x7b'] inp with
    | none => none
    | some r =>
      match parsePropertyList n r with
      | none => none
      | some (props, r1) =>
        match litTok ['\x7d'] r1 with
        | none => none
        | some r2 => some (dictionaryAction props, r2)

/-- `Array <- '[' List(Value) ']'` with the action of `parser["Array"]`:
the element values in source order. -/
def parseArray : Nat → List Char → Option (List Value × List Char)
  | 0, _ => none
  | n + 1, inp =>
    match litTok ['['] inp with
    | none => none
    | some r =>
      match parseValueList n r with
      | none => none
      | some (vs, r1) =>
        match litTok [']'] r1 with
        | none => none
        | some r2 => some (vs, r2)

/-- `Property <- String ':' Value` with the action of `parser["Property"]`:
pair the key with the value. -/
def parseProperty : Nat → List Char →
    Option ((String × Value) × List Char)
  | 0, _ => none
  | n + 1, inp =>
    match parseStringTok inp with
    | none => none
    | some (s, r) =>
      match litTok [':'] r with
      | none => none
      | some r1 =>
        match parseValue n r1 with
        | none => none
        | some (v, r2) => some ((s, v), r2)

/-- `List(Value) <- (Value (',' Value)*)?` — zero or more comma-separated
values, no trailing separator; the whole list may be empty. -/
def parseValueList : Nat → List Char → Option (List Value × List Char)
  | 0, _ => none
  | n + 1, inp =>
    match parseValue n inp with
    | none => some ([], inp)
    | some (v, r) =>
      match parseValueListTail n r with
      | none => none
      | some (vs, r1) => some (v :: vs, r1)

/-- `(',' Value)*` — each iteration is atomic: when `Value` fails after a
comma the iteration backtracks to before the comma. -/
def parseValueListTail : Nat → List Char → Option (List Value × List Char)
  | 0, _ => none
  | n + 1, inp =>
    match litTok [','] inp with
    | none => some ([], inp)
    | some r =>
      match parseValue n r with
      | none => some ([], inp)
      | some (v, r1) =>
        match parseValueListTail n r1 with
        | none => none
        | some (vs, r2) => some (v :: vs, r2)

/-- `List(Property) <- (Property (',' Property)*)?`. -/
def parsePropertyList : Nat → List Char →
    Option (List (String × Value) × List Char)
  | 0, _ => none
  | n + 1, inp =>
    match parseProperty n inp with
    | none => some ([], inp)
    | some (p, r) =>
      match parsePropertyListTail n r with
      | none => none
      | some (ps, r1) => some (p :: ps, r1)

/-- `(',' Property)*` with per-iteration backtracking. -/
def parsePropertyListTail : Nat → List Char →
    Option (List (String × Value) × List Char)
  | 0, _ => none
  | n + 1, inp =>
    match litTok [','] inp with
    | none => some ([], inp)
    | some r =>
      match parseProperty n r with
      | none => some ([], inp)
      | some (p, r1) =>
        match parsePropertyListTail n r1 with
        | none => none
        | some (ps, r2) => some (p :: ps, r2)

end

/-- `Field <- Identifier '=' Value` with the action of `parser["Field"]`. -/
def parseField (n : Nat) (inp : List Char) : Option (Field × List Char) :=
  match parseIdent inp with
  | none => none
  | some (id, r) =>
    match litTok ['='] r with
    | none => none
    | some r1 =>
      match parseValue n r1 with
      | none => none
      | some (v, r2) => some (⟨id, v⟩, r2)

/-- `Fields <- Field*` with the action of `parser["Fields"]`: the matched
fields in order, wrapped as `detail::fields` by the action's return type. -/
def parseFieldsSeq : Nat → List Char → Option (List Field × List Char)
  | 0, _ => none
  | n + 1, inp =>
    match parseField n inp with
    | none => some ([], inp)
    | some (f, r) =>
      match parseFieldsSeq n r with
      | none => none
      | some (fs, r1) => some (f :: fs, r1)

/-- `Assignments <- Field+` with the action of `parser["Assignments"]`:
one or more fields, wrapped as `detail::assignments`. -/
def parseAssignmentsSeq (n : Nat) (inp : List Char) :
    Option (List Field × List Char) :=
  match parseField n inp with
  | none => none
  | some (f, r) =>
    match parseFieldsSeq n r with
    | none => none
    | some (fs, r1) => some (f :: fs, r1)

/-- `Tag <- '[' Identifier Fields ']' Assignments?` with the action of
`parser["Tag"]`: the semantic value list is the identifier, the
`detail::fields` wrapper, and — when the optional body matched — the
`detail::assignments` wrapper; `routeParts` is the action's routing loop. -/
def parseTag (n : Nat) (inp : List Char) : Option (Tag × List Char) :=
  match litTok ['['] inp with
  | none => none
  | some r =>
    match parseIdent r with
    | none => none
    | some (id, r1) =>
      match parseFieldsSeq n r1 with
      | none => none
      | some (fs, r2) =>
        match litTok [']'] r2 with
        | none => none
        | some r3 =>
          match parseAssignmentsSeq n r3 with
          | some (asg, r4) =>
            let routed := routeParts [.fieldsW fs, .assignmentsW asg]
            some (⟨id, routed.1, routed.2⟩, r4)
          | none =>
            let routed := routeParts ([.fieldsW fs] : List (TagPart Field))
            some (⟨id, routed.1, routed.2⟩, r3)

/-- `Tag*` — the repetition tail of `File <- Tag+`. -/
def parseTagsMore : Nat → List Char → Option (List Tag × List Char)
  | 0, _ => none
  | n + 1, inp =>
    match parseTag n inp with
    | none => some ([], inp)
    | some (t, r) =>
      match parseTagsMore n r with
      | none => none
      | some (ts, r1) => some (t :: ts, r1)

/-- `Tag+` — the matched tags in source order. -/
def parseTags (n : Nat) (inp : List Char) :
    Option (List Tag × List Char) :=
  match parseTag n inp with
  | none => none
  | some (t, r) =>
    match parseTagsMore n r with
    | none => none
    | some (ts, r1) => some (t :: ts, r1)

/-- `File <- Tag+` with the action of `parser["File"]`: the tag results, in
match order, become the file's tag sequence. -/
def parseFile (n : Nat) (inp : List Char) : Option (File × List Char) :=
  (parseTags n inp).map fun p => (⟨p.1⟩, p.2)

/-- The engine's whole-input match: `parser.parse` succeeds only when the
top-level `File` production consumes the entire input (trailing whitespace
being between-token whitespace). The fuel bounds the rule-invocation depth
and is ample for the input's length. -/
def gdParseOpt (s : String) : Option File :=
  match parseFile (16 * (s.length + 1)) s.toList with
  | some (f, r) => if skipWs r = [] then some f else none
  | none => none

/-- `gd::parse`: the engine's boolean result is discarded; the output
object is assigned only on success, so a failed parse returns the
default-constructed `gd::file` with no tags. -/
def gdParse (s : String) : File :=
  (gdParseOpt s).getD ⟨[]⟩

/-- The legacy variant's `gd::value`: the numeric member is a single
floating-point value instead of `numeric_t`. -/
inductive LValue where
  | constructable (identifier : String) (arguments : List LValue)
  | dictionary (entries : List (String × LValue))
  | array (elements : List LValue)
  | boolean (b : Bool)
  | str (s : String)
  | fnum (q : ℚ)

/-- The legacy variant's `gd::field`. -/
structure LField where
  name : String
  value : LValue

/-- The legacy variant's `gd::tag`. -/
structure LTag where
  identifier : String
  fields : List LField
  assignments : List LField

/-- The legacy variant's `gd::file`. -/
structure LFile where
  tags : List LTag

mutual

/-- Legacy `Value <- Numeric / String / Constructable / Dictionary / Array /
Boolean` with the legacy `parser["Value"]` action: note `Numeric` is tried
first. -/
def legValue : Nat → List Char → Option (LValue × List Char)
  | 0, _ => none
  | n + 1, inp =>
    match legNumeric inp with
    | some (q, r) => some (.fnum q, r)
    | none =>
      match parseStringTok inp with
      | some (s, r) => some (.str s, r)
      | none =>
        match legConstructable n inp with
        | some (c, r) => some (.constructable c.1 c.2, r)
        | none =>
          match legDictionary n inp with
          | some (d, r) => some (.dictionary d, r)
          | none =>
            match legArray n inp with
            | some (a, r) => some (.array a, r)
            | none =>
              match parseBoolTok inp with
              | some (b, r) => some (.boolean b, r)
              | none => none

/-- Legacy `Constructable <- Identifier '(' List(Value) ')'`. -/
def legConstructable : Nat → List Char →
    Option ((String × List LValue) × List Char)
  | 0, _ => none
  | n + 1, inp =>
    match parseIdent inp with
    | none => none
    | some (id, r) =>
      match litTok ['('] r with
      | none => none
      | some r1 =>
        match legValueList n r1 with
        | none => none
        | some (args, r2) =>
          match litTok [')'] r2 with
          | none => none
          | some r3 => some ((id, args), r3)

/-- Legacy `Dictionary <- '{' List(Property) '}'` (same `std::inserter`
fold as the canonical variant). -/
def legDictionary : Nat → List Char →
    Option (List (String × LValue) × List Char)
  | 0, _ => none
  | n + 1, inp =>
    match litTok ['\x7b'] inp with
    | none => none
    | some r =>
      match legPropertyList n r with
      | none => none
      | some (props, r1) =>
        match litTok ['\x7d'] r1 with
        | none => none
        | some r2 => some (dictionaryAction props, r2)

/-- Legacy `Array <- '[' List(Value) ']'`. -/
def legArray : Nat → List Char → Option (List LValue × List Char)
  | 0, _ => none
  | n + 1, inp =>
    match litTok ['['] inp with
    | none => none
    | some r =>
      match legValueList n r with
      | none => none
      | some (vs, r1) =>
        match litTok [']'] r1 with
        | none => none
        | some r2 => some (vs, r2)

/-- Legacy `Property <- String ':' Value`. -/
def legProperty : Nat → List Char →
    Option ((String × LValue) × List Char)
  | 0, _ => none
  | n + 1, inp =>
    match parseStringTok inp with
    | none => none
    | some (s, r) =>
      match litTok [':'] r with
      | none => none
      | some r1 =>
        match legValue n r1 with
        | none => none
        | some (v, r2) => some ((s, v), r2)

/-- Legacy `List(Value)`. -/
def legValueList : Nat → List Char → Option (List LValue × List Char)
  | 0, _ => none
  | n + 1, inp =>
    match legValue n inp with
    | none => some ([], inp)
    | some (v, r) =>
      match legValueListTail n r with
      | none => none
      | some (vs, r1) => some (v :: vs, r1)

/-- Legacy `(',' Value)*` with per-iteration backtracking. -/
def legValueListTail : Nat → List Char → Option (List LValue × List Char)
  | 0, _ => none
  | n + 1, inp =>
    match litTok [','] inp with
    | none => some ([], inp)
    | some r =>
      match legValue n r with
      | none => some ([], inp)
      | some (v, r1) =>
        match legValueListTail n r1 with
        | none => none
        | some (vs, r2) => some (v :: vs, r2)

/-- Legacy `List(Property)`. -/
def legPropertyList : Nat → List Char →
    Option (List (String × LValue) × List Char)
  | 0, _ => none
  | n + 1, inp =>
    match legProperty n inp with
    | none => some ([], inp)
    | some (p, r) =>
      match legPropertyListTail n r with
      | none => none
      | some (ps, r1) => some (p :: ps, r1)

/-- Legacy `(',' Property)*` with per-iteration backtracking. -/
def legPropertyListTail : Nat → List Char →
    Option (List (String × LValue) × List Char)
  | 0, _ => none
  | n + 1, inp =>
    match litTok [','] inp with
    | none => some ([], inp)
    | some r =>
      match legProperty n r with
      | none => some ([], inp)
      | some (p, r1) =>
        match legPropertyListTail n r1 with
        | none => none
        | some (ps, r2) => some (p :: ps, r2)

end

/-- Legacy `Field <- Identifier '=' Value`. -/
def legField (n : Nat) (inp : List Char) : Option (LField × List Char) :=
  match parseIdent inp with
  | none => none
  | some (id, r) =>
    match litTok ['='] r with
    | none => none
    | some r1 =>
      match legValue n r1 with
      | none => none
      | some (v, r2) => some (⟨id, v⟩, r2)

/-- Legacy `Fields <- Field*`. -/
def legFieldsSeq : Nat → List Char → Option (List LField × List Char)
  | 0, _ => none
  | n + 1, inp =>
    match legField n inp with
    | none => some ([], inp)
    | some (f, r) =>
      match legFieldsSeq n r with
      | none => none
      | some (fs, r1) => some (f :: fs, r1)

/-- Legacy `Assignments <- Field+`. -/
def legAssignmentsSeq (n : Nat) (inp : List Char) :
    Option (List LField × List Char) :=
  match legField n inp with
  | none => none
  | some (f, r) =>
    match legFieldsSeq n r with
    | none => none
    | some (fs, r1) => some (f :: fs, r1)

/-- Legacy `Tag <- '[' Identifier Fields ']' Assignments?` with the same
routing action as the canonical variant. -/
def legTag (n : Nat) (inp : List Char) : Option (LTag × List Char) :=
  match litTok ['['] inp with
  | none => none
  | some r =>
    match parseIdent r with
    | none => none
    | some (id, r1) =>
      match legFieldsSeq n r1 with
      | none => none
      | some (fs, r2) =>
        match litTok [']'] r2 with
        | none => none
        | some r3 =>
          match legAssignmentsSeq n r3 with
          | some (asg, r4) =>
            let routed := routeParts [.fieldsW fs, .assignmentsW asg]
            some (⟨id, routed.1, routed.2⟩, r4)
          | none =>
            let routed := routeParts ([.fieldsW fs] : List (TagPart LField))
            some (⟨id, routed.1, routed.2⟩, r3)

/-- Legacy `Tag*`. -/
def legTagsMore : Nat → List Char → Option (List LTag × List Char)
  | 0, _ => none
  | n + 1, inp =>
    match legTag n inp with
    | none => some ([], inp)
    | some (t, r) =>
      match legTagsMore n r with
      | none => none
      | some (ts, r1) => some (t :: ts, r1)

/-- Legacy `Tag+`. -/
def legTags (n : Nat) (inp : List Char) :
    Option (List LTag × List Char) :=
  match legTag n inp with
  | none => none
  | some (t, r) =>
    match legTagsMore n r with
    | none => none
    | some (ts, r1) => some (t :: ts, r1)

/-- Legacy `File <- Tag+`. -/
def legFile (n : Nat) (inp : List Char) : Option (LFile × List Char) :=
  (legTags n inp).map fun p => (⟨p.1⟩, p.2)

/-- Whole-input match of the legacy variant. -/
def legParseOpt (s : String) : Option LFile :=
  match legFile (16 * (s.length + 1)) s.toList with
  | some (f, r) => if skipWs r = [] then some f else none
  | none => none

/-! ## Properties of the dictionary fold -/

theorem dictLookup_cons {α : Type} (q : String × α)
    (ps : List (String × α)) (k : String) :
    dictLookup (q :: ps) k =
      if q.1 == k then some q.2 else dictLookup ps k := by
  unfold dictLookup
  by_cases hk : q.1 == k
  · rw [@List.find?_cons_of_pos _ (fun e => e.1 == k) q ps hk, if_pos hk]
    rfl
  · rw [@List.find?_cons_of_neg _ (fun e => e.1 == k) q ps hk, if_neg hk]

theorem dictLookup_dictInsert {α : Type} (d : List (String × α))
    (p : String × α) (k : String) :
    dictLookup (dictInsert d p) k =
      (dictLookup d k).or (if p.1 == k then some p.2 else none) := by
  unfold dictInsert
  by_cases hany : d.any (fun e => e.1 == p.1)
  · rw [if_pos hany]
    cases hd : dictLookup d k with
    | some v => rw [Option.or_some]
    | none =>
      rw [Option.none_or]
      have hall : ∀ x ∈ d, ¬(x.1 == k) := by
        have hfind : d.find? (fun e => e.1 == k) = none := by
          unfold dictLookup at hd
          exact Option.map_eq_none'.mp hd
        exact List.find?_eq_none.mp hfind
      obtain ⟨e, he, hep⟩ := List.any_eq_true.mp hany
      have hpk : ¬(p.1 == k) := by
        intro hk
        apply hall e he
        have h1 : e.1 = p.1 := by simpa using hep
        have h2 : p.1 = k := by simpa using hk
        simp [h1, h2]
      rw [if_neg hpk]
  · rw [if_neg hany]
    unfold dictLookup
    rw [List.find?_append]
    by_cases hk : p.1 == k
    · rw [@List.find?_cons_of_pos _ (fun e => e.1 == k) p [] hk, if_pos hk]
      cases hd : d.find? (fun e => e.1 == k) with
      | some v => simp
      | none => simp
    · rw [@List.find?_cons_of_neg _ (fun e => e.1 == k) p [] hk, if_neg hk]
      cases hd : d.find? (fun e => e.1 == k) with
      | some v => simp
      | none => simp

theorem dictLookup_foldl {α : Type} (props : List (String × α)) :
    ∀ (acc : List (String × α)) (k : String),
      dictLookup (props.foldl dictInsert acc) k =
        (dictLookup acc k).or (dictLookup props k) := by
  induction props with
  | nil => intro acc k; simp [dictLookup, Option.or_none]
  | cons q ps ih =>
    intro acc k
    rw [List.foldl_cons, ih (dictInsert acc q) k, dictLookup_dictInsert,
      Option.or_assoc, dictLookup_cons]
    by_cases hk : q.1 == k
    · rw [if_pos hk, if_pos hk, Option.or_some]
    · rw [if_neg hk, if_neg hk, Option.none_or]

/-! ## Claims -/

/-- C1 (counterexample): the claim says `{"a":1,"a":2}` yields a one-entry
mapping where `"a"` maps to `2`; the Dictionary action (an `unordered_map`
`insert`, which never overwrites) in fact keeps the FIRST occurrence, so
the single entry maps `"a"` to `1`, which differs from `2`. -/
theorem dict_last_wins_counterexample :
    parseValue 32 "\x7b\"a\":1,\"a\":2\x7d".toList =
      some (.dictionary [("a", .numeric (.integer 1))], []) ∧
    Value.dictionary [("a", .numeric (.integer 1))] ≠
      Value.dictionary [("a", .numeric (.integer 2))] := by
  refine ⟨rfl, ?_⟩
  intro h
  simp at h

/-- C1 (amended): duplicate dictionary keys resolve FIRST-wins: looking any
key up in the Dictionary action's result gives the value of the earliest
property with that key, and `{"a":1,"a":2}` parses to the one-entry mapping
in which `"a"` maps to `1`. -/
theorem dict_duplicate_first_wins :
    (∀ (props : List (String × Value)) (k : String),
        dictLookup (dictionaryAction props) k = dictLookup props k) ∧
    parseValue 32 "\x7b\"a\":1,\"a\":2\x7d".toList =
      some (.dictionary [("a", .numeric (.integer 1))], []) := by
  refine ⟨?_, rfl⟩
  intro props k
  unfold dictionaryAction
  rw [dictLookup_foldl]
  rfl

/-- C2: the literal `-12.5e-3` parses to the `Float` variant of `Numeric`
with value `-0.0125`, and the literal `42` (no following `.`) parses to
the `Integer` variant with value `42`, not to `Float`. -/
theorem numeric_literal_kinds :
    parseNumeric "-12.5e-3".toList = some (.float (-0.0125 : ℚ), []) ∧
    parseNumeric "42".toList = some (.integer 42, []) := by
  constructor
  · have h : parseNumeric "-12.5e-3".toList =
        some (.float (mkRat (-125) 10000), []) := rfl
    rw [h]
    have hq : mkRat (-125) 10000 = (-0.0125 : ℚ) := by
      rw [Rat.mkRat_eq_div]
      norm_num
    rw [hq]
  · rfl

/-- C3: in the canonical `Value` production the `Constructable` alternative
is tried first, so whenever `Constructable` matches, `Value` commits to it;
in particular the digit-leading `2dnode(1)` parses as a `Constructable`
consuming the whole text, never as the `Numeric` `2` with text left over. -/
theorem value_constructable_first :
    (∀ (n : Nat) (inp : List Char) (c : String × List Value)
        (rest : List Char),
        parseConstructable n inp = some (c, rest) →
        parseValue (n + 1) inp = some (.constructable c.1 c.2, rest)) ∧
    parseValue 32 "2dnode(1)".toList =
      some (.constructable "2dnode" [.numeric (.integer 1)], []) := by
  refine ⟨?_, rfl⟩
  intro n inp c rest h
  unfold parseValue
  rw [h]

/-- C3 (witness): instantiation at the digit-leading constructor call
`2dnode(1)`. -/
theorem value_constructable_first_witness :
    parseValue 32 "2dnode(1)".toList =
      some (.constructable "2dnode" [.numeric (.integer 1)], []) :=
  value_constructable_first.1 31 ("2dnode(1)".toList)
    ("2dnode", [.numeric (.integer 1)]) [] (by rfl)

/-- C4: every successful `Tag` parse decomposes as `'[' Identifier Fields
']' Assignments?`; the tag's `fields` are exactly the `Fields` matched
between the brackets and its `assignments` are exactly the optional
`Assignments` matched after `']'` — empty, not a failure, when the body is
absent. The two sequences never mix. -/
theorem tag_fields_assignments_split :
    (∀ (n : Nat) (inp : List Char) (t : Tag) (rest : List Char),
        parseTag n inp = some (t, rest) →
        ∃ r r1 r2 r3 fs,
          litTok ['['] inp = some r ∧
          parseIdent r = some (t.identifier, r1) ∧
          parseFieldsSeq n r1 = some (fs, r2) ∧
          litTok [']'] r2 = some r3 ∧
          t.fields = fs ∧
          ((∃ asg, parseAssignmentsSeq n r3 = some (asg, rest) ∧
              t.assignments = asg) ∨
            (parseAssignmentsSeq n r3 = none ∧ t.assignments = [] ∧
              rest = r3))) ∧
    parseTag 16 "[x a=1]".toList =
      some (⟨"x", [⟨"a", .numeric (.integer 1)⟩], []⟩, []) := by
  refine ⟨?_, rfl⟩
  intro n inp t rest h
  unfold parseTag at h
  split at h
  next => simp at h
  next r h1 =>
    split at h
    next => simp at h
    next id r1 h2 =>
      split at h
      next => simp at h
      next fs r2 h3 =>
        split at h
        next => simp at h
        next r3 h4 =>
          split at h
          next asg r4 h5 =>
            simp only [routeParts, List.foldl_cons, List.foldl_nil,
              Option.some.injEq, Prod.mk.injEq] at h
            obtain ⟨ht, hr⟩ := h
            subst ht
            subst hr
            exact ⟨r, r1, r2, r3, fs, h1, h2, h3, h4, rfl,
              Or.inl ⟨asg, h5, rfl⟩⟩
          next h5 =>
            simp only [routeParts, List.foldl_cons, List.foldl_nil,
              Option.some.injEq, Prod.mk.injEq] at h
            obtain ⟨ht, hr⟩ := h
            subst ht
            subst hr
            exact ⟨r, r1, r2, r3, fs, h1, h2, h3, h4, rfl,
              Or.inr ⟨h5, rfl, rfl⟩⟩

/-- C4 (witness): instantiation at `[x a=1]`, a tag whose body has no
assignments: it parses successfully and the assignment sequence is empty. -/
theorem tag_fields_assignments_split_witness :
    ∃ r r1 r2 r3 fs,
      litTok ['['] "[x a=1]".toList = some r ∧
      parseIdent r = some ("x", r1) ∧
      parseFieldsSeq 16 r1 = some (fs, r2) ∧
      litTok [']'] r2 = some r3 ∧
      [(⟨"a", Value.numeric (.integer 1)⟩ : Field)] = fs ∧
      ((∃ asg, parseAssignmentsSeq 16 r3 = some (asg, []) ∧
          ([] : List Field) = asg) ∨
        (parseAssignmentsSeq 16 r3 = none ∧ ([] : List Field) = [] ∧
          ([] : List Char) = r3)) :=
  tag_fields_assignments_split.1 16 ("[x a=1]".toList)
    ⟨"x", [⟨"a", .numeric (.integer 1)⟩], []⟩ [] (by rfl)

/-- C5: a parsed string literal is uninterpreted: the input decomposes as
leading whitespace, `'"'`, the captured payload verbatim, `'"'`, and the
rest; no character of the payload is a quote, and no escape processing or
whitespace skipping happens inside the captured span. -/
theorem string_payload_verbatim :
    (∀ (inp : List Char) (s : String) (rest : List Char),
        parseStringTok inp = some (s, rest) →
        ∃ w, (∀ c ∈ w, isWsChar c = true) ∧
          inp = w ++ '"' :: (s.data ++ '"' :: rest) ∧
          ∀ c ∈ s.data, c ≠ '"') ∧
    parseStringTok " \"ab\"".toList = some ("ab", []) := by
  refine ⟨?_, rfl⟩
  intro inp s rest h
  unfold parseStringTok at h
  split at h
  next r hu =>
    split at h
    next r1 hd =>
      simp only [Option.some.injEq, Prod.mk.injEq] at h
      obtain ⟨hs, hr⟩ := h
      have hu1 : inp.dropWhile isWsChar = '"' :: r := hu
      have hsd : s.data = r.takeWhile (fun c => !(c == '"')) := by
        rw [← hs]
      refine ⟨inp.takeWhile isWsChar, ?_, ?_, ?_⟩
      · intro c hc
        exact List.mem_takeWhile_imp hc
      · conv_lhs => rw [← List.takeWhile_append_dropWhile isWsChar inp]
        rw [hu1]
        have hr2 : r = s.data ++ '"' :: rest := by
          rw [hsd, ← hr]
          conv_lhs =>
            rw [← List.takeWhile_append_dropWhile
              (fun c => !(c == '"')) r]
          rw [hd]
        rw [← hr2]
      · intro c hc
        rw [hsd] at hc
        have hp := List.mem_takeWhile_imp hc
        simpa using hp
    next => simp at h
  next => simp at h

/-- C5 (witness): instantiation at `"ab"` preceded by a space. -/
theorem string_payload_verbatim_witness :
    ∃ w, (∀ c ∈ w, isWsChar c = true) ∧
      " \"ab\"".toList = w ++ '"' :: (("ab" : String).data ++ '"' :: []) ∧
      ∀ c ∈ ("ab" : String).data, c ≠ '"' :=
  string_payload_verbatim.1 (" \"ab\"".toList) "ab" [] (by rfl)

/-- C6: `List(T)` forbids trailing separators: `[]`, `[1]` and `[1,2]`
parse as arrays preserving count and order, `[1,2,]` fails as a value, and
a file containing `[1,2,]` fails to parse as a whole. -/
theorem list_no_trailing_separator :
    parseValue 32 "[]".toList = some (.array [], []) ∧
    parseValue 32 "[1]".toList =
      some (.array [.numeric (.integer 1)], []) ∧
    parseValue 32 "[1,2]".toList =
      some (.array [.numeric (.integer 1), .numeric (.integer 2)], []) ∧
    parseValue 32 "[1,2,]".toList = none ∧
    gdParseOpt "[x]\na=[1,2,]" = none :=
  ⟨rfl, rfl, rfl, rfl, rfl⟩

/-- C7: parsing is all-or-nothing: any result with at least one tag stems
from a successful whole-input match, and an input whose later part fails
(`[a][`) produces no partial tree at all, even though its first tag is
well-formed. -/
theorem parse_all_or_nothing :
    (∀ (s : String) (f : File), gdParse s = f →
        f.tags = [] ∨ gdParseOpt s = some f) ∧
    gdParseOpt "[a][" = none ∧ gdParse "[a][" = ⟨[]⟩ := by
  refine ⟨?_, rfl, rfl⟩
  intro s f h
  unfold gdParse at h
  cases hq : gdParseOpt s with
  | none =>
    rw [hq] at h
    left
    rw [← h]
    rfl
  | some f1 =>
    rw [hq] at h
    right
    have h1 : f1 = f := h
    rw [h1]

/-- C7 (witness): instantiation at the well-formed input `[a]`. -/
theorem parse_all_or_nothing_witness :
    (⟨[⟨"a", [], []⟩]⟩ : File).tags = [] ∨
      gdParseOpt "[a]" = some ⟨[⟨"a", [], []⟩]⟩ :=
  parse_all_or_nothing.1 "[a]" ⟨[⟨"a", [], []⟩]⟩ (by rfl)

/-- C8: on any failing input `gd::parse` still returns normally with the
default-constructed file (empty tag sequence), because the engine's
success flag is discarded and the output object is assigned only on
success; `???` is such an input. -/
theorem parse_failure_default_file :
    (∀ s : String, gdParseOpt s = none → gdParse s = ⟨[]⟩) ∧
    gdParseOpt "???" = none := by
  refine ⟨?_, rfl⟩
  intro s h
  unfold gdParse
  rw [h]
  rfl

/-- C8 (witness): instantiation at the failing input `???`. -/
theorem parse_failure_default_file_witness : gdParse "???" = ⟨[]⟩ :=
  parse_failure_default_file.1 "???" (by rfl)

/-- C9 (counterexample): the claim says the two variants accept exactly
the same inputs; in fact the legacy variant rejects `[x a=2dnode(1)]`
(its `Value` tries `Numeric` first, consuming only `2`), while the
canonical variant accepts it as a constructor call. -/
theorem variant_acceptance_differs :
    legParseOpt "[x a=2dnode(1)]" = none ∧
    gdParseOpt "[x a=2dnode(1)]" =
      some ⟨[⟨"x", [⟨"a", .constructable "2dnode"
        [.numeric (.integer 1)]⟩], []⟩]⟩ :=
  ⟨rfl, rfl⟩

/-- C9 (amended): the two variants differ in numeric representation AND in
`Value` alternative order. The numeric productions themselves are
refinement-equivalent: the legacy `Numeric` matches exactly the spans the
canonical `Numeric` matches and its value is the canonical value collapsed
to a single floating representation. But the accepted input sets differ:
the canonical variant accepts the digit-leading constructor call
`[x a=2dnode(1)]` that the legacy variant rejects; on an input accepted by
both (e.g. `[y a=7]`) the trees agree except for the numeric
representation. -/
theorem numeric_collapse_refinement :
    (∀ inp : List Char, legNumeric inp =
        (parseNumeric inp).map fun p => (collapseNumeric p.1, p.2)) ∧
    legParseOpt "[y a=7]" =
      some ⟨[⟨"y", [⟨"a", .fnum ((7 : Int) : ℚ)⟩], []⟩]⟩ ∧
    gdParseOpt "[y a=7]" =
      some ⟨[⟨"y", [⟨"a", .numeric (.integer 7)⟩], []⟩]⟩ ∧
    legParseOpt "[x a=2dnode(1)]" = none ∧
    (gdParseOpt "[x a=2dnode(1)]").isSome = true := by
  refine ⟨?_, rfl, rfl, rfl, rfl⟩
  intro inp
  unfold legNumeric parseNumeric parseFloatTok parseIntegerTok
  cases h1 : parseSignDigits (skipWs inp) with
  | none => rfl
  | some p =>
    obtain ⟨⟨neg, m⟩, r⟩ := p
    cases h2 : parseFracExp r with
    | none => simp [h2, collapseNumeric]
    | some q =>
      obtain ⟨⟨ds, e⟩, r1⟩ := q
      simp [h2, collapseNumeric]

/-- C10: a successful `File` parse is exactly a `Tag+` run: the file's tag
sequence is the sequence of matched tags, in source order; `[a][b][c]`
yields exactly its three tags in order. -/
theorem file_tags_count_order :
    (∀ (n : Nat) (inp : List Char) (f : File) (rest : List Char),
        parseFile n inp = some (f, rest) →
        ∃ ts, parseTags n inp = some (ts, rest) ∧ f.tags = ts) ∧
    gdParse "[a][b][c]" =
      ⟨[⟨"a", [], []⟩, ⟨"b", [], []⟩, ⟨"c", [], []⟩]⟩ ∧
    (gdParse "[a][b][c]").tags.map Tag.identifier = ["a", "b", "c"] := by
  refine ⟨?_, rfl, rfl⟩
  intro n inp f rest h
  unfold parseFile at h
  cases hq : parseTags n inp with
  | none => rw [hq] at h; simp at h
  | some p =>
    obtain ⟨ts, r⟩ := p
    rw [hq] at h
    simp only [Option.map_some', Option.some.injEq, Prod.mk.injEq] at h
    obtain ⟨hf, hr⟩ := h
    subst hr
    exact ⟨ts, rfl, by rw [← hf]⟩

/-- C10 (witness): instantiation at the three-tag input `[a][b][c]`. -/
theorem file_tags_count_order_witness :
    ∃ ts, parseTags 160 "[a][b][c]".toList = some (ts, []) ∧
      (⟨[⟨"a", [], []⟩, ⟨"b", [], []⟩, ⟨"c", [], []⟩]⟩ : File).tags = ts :=
  file_tags_count_order.1 160 ("[a][b][c]".toList)
    ⟨[⟨"a", [], []⟩, ⟨"b", [], []⟩, ⟨"c", [], []⟩]⟩ [] (by rfl)

end GD

